import Mathlib

/-!
Verification of the relation-resolution layer of `nestjs-query`
(`packages/query-typegoose/src/services/reference-query.service.ts`).

The service is embedded shallowly:

* a document is an id plus an association list of named fields, each field
  holding no value, a single foreign id, or an array of foreign ids;
* the schema records the declared reference paths (with their reference
  metadata) and virtual paths (with their `ref` / `localField` /
  `foreignField` options when present), mirroring what
  `Model.schema.path` / `Model.schema.virtualpath` expose;
* the store is the primary collection plus the named target collections,
  and every operation additionally returns the list of store interactions
  it performed (reads of the primary collection, populate / count /
  aggregate queries against a target collection, and the single
  find-one-and-update write), so that "no query is issued" and
  frame properties are expressible;
* filters are predicates on documents; external collaborators
  (`FilterQueryBuilder`, `mergeFilter`, the assembler, `AggregateBuilder`,
  `getById` of the base service) are not part of the given source file and
  are modelled from the spec where marked.

Errors thrown by the service become `Except.error` values carrying a
constructor per distinct message of the source.
-/

set_option autoImplicit false

namespace NQ

/-- Value of one document field: absent (`undefined`), a single foreign id,
or an array of foreign ids. -/
inductive FieldValue where
  | absent
  | one (id : Nat)
  | many (ids : List Nat)
  deriving Repr, DecidableEq

instance : BEq FieldValue := ⟨fun a b => decide (a = b)⟩

/-- A document of a collection: its `_id` and its named fields. -/
structure Doc where
  _id : Nat
  fields : List (String × FieldValue)
  deriving Repr, DecidableEq

instance : BEq Doc := ⟨fun a b => decide (a = b)⟩

/-- JavaScript field access `entity[name]`: `undefined` when absent. -/
def Doc.get (d : Doc) (f : String) : FieldValue :=
  (d.fields.lookup f).getD .absent

/-- Replace the first binding of a key in an association list, or append
a new binding when the key is absent. -/
def setAssoc : List (String × FieldValue) → String → FieldValue →
    List (String × FieldValue)
  | [], f, v => [(f, v)]
  | (k, w) :: rest, f, v =>
    if k = f then (k, v) :: rest else (k, w) :: setAssoc rest f v

/-- Replace (or insert) the value of field `f`. -/
def Doc.setField (d : Doc) (f : String) (v : FieldValue) : Doc :=
  { d with fields := setAssoc d.fields f v }

/-- Remove field `f` (the effect of a `$unset`). -/
def Doc.removeField (d : Doc) (f : String) : Doc :=
  { d with fields := d.fields.filter (fun p => p.1 ≠ f) }

/-- A filter is its evaluation: which documents it matches. -/
def DocFilter : Type := Doc → Bool

/-- Evaluate an optional filter; an absent filter matches everything
(`filter ?? \x7b\x7d` in the source). -/
def optHolds (f : Option DocFilter) (d : Doc) : Bool :=
  match f with
  | none => true
  | some f => f d

/-- Modelled from the spec (§3, §4.1): `mergeFilter` of `@nestjs-query/core`
AND-combines two filters with respect to the matched set. -/
def mergeFilter (f g : DocFilter) : DocFilter :=
  fun d => f d && g d

/-- Modelled from the spec (§4.1): `FilterQueryBuilder.buildIdFilterQuery`
applied to a list of ids restricts to documents whose `_id` is in the list,
AND-combined with the optional filter. -/
def buildIdFilterQuery (ids : List Nat) (f : Option DocFilter) : DocFilter :=
  fun d => ids.contains d._id && optHolds f d

/-- Modelled from the spec (§4.1): `FilterQueryBuilder.buildIdFilterQuery`
applied to a single id. -/
def buildIdFilterQueryOne (id : Nat) (f : Option DocFilter) : DocFilter :=
  fun d => (d._id == id) && optHolds f d

/-- Reference metadata of a declared schema path, as inspected by
`getReferenceModel`: an embedded schema type with a `ref`
(`isEmbeddedSchemaTypeOptions`), a plain schema type with a `ref`
(`isSchemaTypeWithReferenceOptions`), or a path with neither. -/
inductive RefPathInfo where
  | embedded (ref : String)
  | plain (ref : String)
  | other
  deriving Repr, DecidableEq

/-- Options of a virtual path that satisfies
`isVirtualTypeWithReferenceOptions`. -/
structure VirtualInfo where
  ref : String
  localField : String
  foreignField : String
  deriving Repr, DecidableEq

/-- The schema of the primary model: declared paths
(`Model.schema.path`) and virtual paths (`Model.schema.virtualpath`);
a virtual path may lack reference options (`none`). -/
structure Schema where
  paths : List (String × RefPathInfo)
  virtuals : List (String × Option VirtualInfo)
  deriving Repr, DecidableEq

/-- The service instance: its model name and the model's schema. -/
structure Service where
  modelName : String
  schema : Schema
  deriving Repr, DecidableEq

/-- The document store: the primary collection of the service's model and
the named target collections (`getModelWithString`). -/
structure Store where
  primary : List Doc
  collections : List (String × List Doc)
  deriving Repr, DecidableEq

/-- The collection registered under a model name (empty when absent). -/
def Store.coll (s : Store) (name : String) : List Doc :=
  (s.collections.lookup name).getD []

/-- Errors raised by the service, one constructor per message. -/
inductive Err where
  | unableToFindReference (refName modelName : String)
  | virtualNotSupported (operation refName : String)
  | unableToLookupRefType (refName : String)
  | unableToFindAllToAdd (relationName modelName : String)
  | unableToFindToSet (relationName modelName : String)
  | unableToFindToRemove (relationName modelName : String)
  | unableToFindAllToRemove (relationName modelName : String)
  | notFound (modelName : String) (id : Nat)
  | pushNonArray (field : String)
  | pullAllNonArray (field : String)
  deriving Repr, DecidableEq

/-- One store interaction performed by an operation. -/
inductive Effect where
  | findById (id : Nat)
  | populateRead (relationName : String)
  | targetCount (relationName : String)
  | targetAggregate (relationName : String)
  | findOneAndUpdate (id : Nat)
  | getByIdRead (id : Nat)
  deriving Repr, DecidableEq

/-- What `populated.get(relationName)` yields: `null`/`undefined`, a single
document (singular reference path), or an array of documents (array
reference path or virtual path). -/
inductive PopResult where
  | nil
  | one (d : Doc)
  | many (ds : List Doc)
  deriving Repr, DecidableEq

/-- An aggregate response: `\x7b\x7d` when the pipeline produced no group row,
otherwise the response built by `AggregateBuilder.convertToAggregateResponse`
from the single group row.  Modelled from the spec (§6): the builder is an
external collaborator; the row is modelled as a count over the matched
documents. -/
inductive AggResponse where
  | empty
  | row (n : Nat)
  deriving Repr, DecidableEq

/-- The caller-supplied `Query` of the read operations, reduced to what
`FilterQueryBuilder.buildQuery` extracts from it (§4.1): the filter
(`filterQuery`) and the paging options passed to populate. -/
structure RelQuery where
  filter : Option DocFilter
  skip : Option Nat
  limit : Option Nat

/-- The update documents issued by the mutation operations:
`$push $each`, plain set, `$unset`, `$pullAll`. -/
inductive UpdateOp where
  | push (field : String) (ids : List Nat)
  | setF (field : String) (id : Nat)
  | unset (field : String)
  | pullAll (field : String) (ids : List Nat)

/-- Source `isReferencePath`: the schema declares a path of this name. -/
def isReferencePath (sch : Schema) (refName : String) : Bool :=
  (sch.paths.lookup refName).isSome

/-- Source `isVirtualPath`: the schema declares a virtual path of this name. -/
def isVirtualPath (sch : Schema) (refName : String) : Bool :=
  (sch.virtuals.lookup refName).isSome

/-- Source `checkForReference`: accept reference paths; accept virtual paths only
when `allowVirtual`; otherwise fail with the unknown-reference error. -/
def checkForReference (svc : Service) (operation refName : String)
    (allowVirtual : Bool) : Except Err Unit :=
  if isReferencePath svc.schema refName then .ok ()
  else if isVirtualPath svc.schema refName then
    if allowVirtual then .ok ()
    else .error (.virtualNotSupported operation refName)
  else .error (.unableToFindReference refName svc.modelName)

/-- Source `getReferenceModel`, reduced to the name of the target model it
resolves: reference paths via their embedded / plain `ref` option, else
virtual paths via their reference options, else the lookup error. -/
def getReferenceModelName (svc : Service) (refName : String) :
    Except Err String :=
  match svc.schema.paths.lookup refName with
  | some (.embedded ref) => .ok ref
  | some (.plain ref) => .ok ref
  | some .other => .error (.unableToLookupRefType refName)
  | none =>
    match svc.schema.virtuals.lookup refName with
    | some (some vi) => .ok vi.ref
    | _ => .error (.unableToLookupRefType refName)

/-- Evaluation of the store filter `\x7b field: \x7b eq|in: value \x7d \x7d`
built from a local field value: a scalar must be equal, an array membership;
an absent (`undefined`) value matches no stored id. -/
def fvMatches (foreign refVal : FieldValue) : Bool :=
  match refVal with
  | .absent => false
  | .one i => foreign == .one i
  | .many ids =>
    match foreign with
    | .one j => ids.contains j
    | _ => false

/-- Source `getObjectIdReferenceFilter`: `\x7b _id: \x7b in|eq: entity[refName] \x7d \x7d`
merged with the optional caller filter. -/
def getObjectIdReferenceFilter (refName : String) (entity : Doc)
    (filter : Option DocFilter) : DocFilter :=
  let referenceIds := entity.get refName
  let refFilter : DocFilter := fun d =>
    match referenceIds with
    | .absent => false
    | .one i => d._id == i
    | .many ids => ids.contains d._id
  mergeFilter (optHolds filter) refFilter

/-- Source `getVirtualReferenceFilter`: `\x7b [foreignField]: \x7b in|eq: entity[localField] \x7d \x7d`
merged with the optional caller filter. -/
def getVirtualReferenceFilter (vi : VirtualInfo) (entity : Doc)
    (filter : Option DocFilter) : DocFilter :=
  let refVal := entity.get vi.localField
  mergeFilter (optHolds filter) (fun d => fvMatches (d.get vi.foreignField) refVal)

/-- Source `getReferenceFilter`: a filter for reference paths, a filter for virtual
paths carrying reference options (else the lookup error), and `undefined`
when the name is neither kind of path. -/
def getReferenceFilter (svc : Service) (refName : String) (entity : Doc)
    (filter : Option DocFilter) : Except Err (Option DocFilter) :=
  if isReferencePath svc.schema refName then
    .ok (some (getObjectIdReferenceFilter refName entity filter))
  else if isVirtualPath svc.schema refName then
    match svc.schema.virtuals.lookup refName with
    | some (some vi) => .ok (some (getVirtualReferenceFilter vi entity filter))
    | _ => .error (.unableToLookupRefType refName)
  else .ok none

/-- Paging options that populate passes to the target query. -/
def applyPopulateOpts (skip limit : Option Nat) (ds : List Doc) : List Doc :=
  let dropped := match skip with | none => ds | some n => ds.drop n
  match limit with | none => dropped | some n => dropped.take n

/-- Semantics of `document.populate(\x7b path, match, options \x7d)`: a direct
reference path resolves the stored id(s) against the target collection,
keeping only documents accepted by `match`; a virtual path resolves the
target documents whose foreign field matches the entity's local field
value.  Arrays are subject to the paging options. -/
def populatePath (svc : Service) (store : Store) (refName : String)
    (entity : Doc) (matchF : Option DocFilter) (skip limit : Option Nat) :
    Except Err PopResult :=
  match getReferenceModelName svc refName with
  | .error e => .error e
  | .ok refModel =>
    let coll := store.coll refModel
    if isReferencePath svc.schema refName then
      match entity.get refName with
      | .absent => .ok .nil
      | .one i =>
        match coll.find? (fun d => d._id == i && optHolds matchF d) with
        | some d => .ok (.one d)
        | none => .ok .nil
      | .many ids =>
        .ok (.many (applyPopulateOpts skip limit
          (ids.filterMap (fun i => coll.find? (fun d => d._id == i && optHolds matchF d)))))
    else
      match svc.schema.virtuals.lookup refName with
      | some (some vi) =>
        .ok (.many (applyPopulateOpts skip limit
          (coll.filter (fun d =>
            fvMatches (d.get vi.foreignField) (entity.get vi.localField) && optHolds matchF d))))
      | _ => .error (.unableToLookupRefType refName)

/-- Source `findRelation`, single-entity overload.  Re-fetches the source entity by
id (absent entity resolves to `undefined`), then populates the relation
restricted to the converted caller filter. -/
def findRelation (svc : Service) (store : Store) (relationName : String)
    (dto : Doc) (optsFilter : Option DocFilter) :
    Except Err PopResult × List Effect :=
  match checkForReference svc "FindRelation" relationName true with
  | .error e => (.error e, [])
  | .ok _ =>
    match store.primary.find? (fun d => d._id == dto._id) with
    | none => (.ok .nil, [.findById dto._id])
    | some foundEntity =>
      match getReferenceModelName svc relationName with
      | .error e => (.error e, [.findById dto._id])
      | .ok _ =>
        match populatePath svc store relationName foundEntity optsFilter none none with
        | .error e => (.error e, [.findById dto._id])
        | .ok r => (.ok r, [.findById dto._id, .populateRead relationName])

/-- Source `queryRelations`, single-entity overload.  Re-fetches the source entity
by id (absent entity resolves to the empty list), then populates the
relation restricted to the query's filter and paging options. -/
def queryRelations (svc : Service) (store : Store) (relationName : String)
    (dto : Doc) (query : RelQuery) : Except Err PopResult × List Effect :=
  match checkForReference svc "QueryRelations" relationName true with
  | .error e => (.error e, [])
  | .ok _ =>
    match store.primary.find? (fun d => d._id == dto._id) with
    | none => (.ok (.many []), [.findById dto._id])
    | some foundEntity =>
      match populatePath svc store relationName foundEntity query.filter query.skip query.limit with
      | .error e => (.error e, [.findById dto._id])
      | .ok r => (.ok r, [.findById dto._id, .populateRead relationName])

/-- Source `aggregateRelations`, single-entity overload.  Builds the reference
filter from the passed entity's current field values; an absent reference
filter yields `\x7b\x7d` without a store query; otherwise runs the
match-and-group pipeline over the target collection. -/
def aggregateRelations (svc : Service) (store : Store) (relationName : String)
    (dto : Doc) (filter : Option DocFilter) :
    Except Err AggResponse × List Effect :=
  match checkForReference svc "AggregateRelations" relationName true with
  | .error e => (.error e, [])
  | .ok _ =>
    match getReferenceModelName svc relationName with
    | .error e => (.error e, [])
    | .ok refModel =>
      match getReferenceFilter svc relationName dto filter with
      | .error e => (.error e, [])
      | .ok none => (.ok .empty, [])
      | .ok (some refFilter) =>
        let matched := (store.coll refModel).filter refFilter
        (.ok (if matched.isEmpty then .empty else .row matched.length),
         [.targetAggregate relationName])

/-- Source `countRelations`, single-entity overload.  Builds the reference filter
from the passed entity's current field values; an absent reference filter
yields `0` without a store query; otherwise counts the matching target
documents. -/
def countRelations (svc : Service) (store : Store) (relationName : String)
    (dto : Doc) (filter : Option DocFilter) : Except Err Nat × List Effect :=
  match checkForReference svc "CountRelations" relationName true with
  | .error e => (.error e, [])
  | .ok _ =>
    match getReferenceModelName svc relationName with
    | .error e => (.error e, [])
    | .ok refModel =>
      match getReferenceFilter svc relationName dto filter with
      | .error e => (.error e, [])
      | .ok none => (.ok 0, [])
      | .ok (some refFilter) =>
        ((.ok ((store.coll refModel).countP refFilter)), [.targetCount relationName])

/-- Semantics of JavaScript `Map.prototype.set` on the association list of
entries: replace the value of an existing key in place, else append. -/
def mapSet {α : Type} (m : List (Doc × α)) (k : Doc) (v : α) : List (Doc × α) :=
  match m with
  | [] => [(k, v)]
  | (k', v') :: rest => if k' == k then (k', v) :: rest else (k', v') :: mapSet rest k v

/-- The ordered fold of the batched overloads: apply the single-entity
operation to each entity in input order, accumulating results with
`Map.set` and concatenating the store interactions; the first error aborts
the batch. -/
def batchReduceGo {α : Type} (step : Doc → Except Err α × List Effect) :
    List Doc → List (Doc × α) → List Effect →
    Except Err (List (Doc × α)) × List Effect
  | [], m, tr => (.ok m, tr)
  | d :: rest, m, tr =>
    match step d with
    | (.error e, tr') => (.error e, tr ++ tr')
    | (.ok v, tr') => batchReduceGo step rest (mapSet m d v) (tr ++ tr')

/-- Source `findRelation`, batched overload. -/
def findRelationMany (svc : Service) (store : Store) (relationName : String)
    (dtos : List Doc) (optsFilter : Option DocFilter) :
    Except Err (List (Doc × PopResult)) × List Effect :=
  match checkForReference svc "FindRelation" relationName true with
  | .error e => (.error e, [])
  | .ok _ =>
    batchReduceGo (fun d => findRelation svc store relationName d optsFilter) dtos [] []

/-- Source `queryRelations`, batched overload. -/
def queryRelationsMany (svc : Service) (store : Store) (relationName : String)
    (dtos : List Doc) (query : RelQuery) :
    Except Err (List (Doc × PopResult)) × List Effect :=
  match checkForReference svc "QueryRelations" relationName true with
  | .error e => (.error e, [])
  | .ok _ =>
    batchReduceGo (fun d => queryRelations svc store relationName d query) dtos [] []

/-- Source `aggregateRelations`, batched overload (the source resolves the target
model before branching on the array input). -/
def aggregateRelationsMany (svc : Service) (store : Store)
    (relationName : String) (dtos : List Doc) (filter : Option DocFilter) :
    Except Err (List (Doc × AggResponse)) × List Effect :=
  match checkForReference svc "AggregateRelations" relationName true with
  | .error e => (.error e, [])
  | .ok _ =>
    match getReferenceModelName svc relationName with
    | .error e => (.error e, [])
    | .ok _ =>
      batchReduceGo (fun d => aggregateRelations svc store relationName d filter) dtos [] []

/-- Source `countRelations`, batched overload. -/
def countRelationsMany (svc : Service) (store : Store) (relationName : String)
    (dtos : List Doc) (filter : Option DocFilter) :
    Except Err (List (Doc × Nat)) × List Effect :=
  match checkForReference svc "CountRelations" relationName true with
  | .error e => (.error e, [])
  | .ok _ =>
    batchReduceGo (fun d => countRelations svc store relationName d filter) dtos [] []

/-- Application of an update document to one matched document, with the
store's errors for `$push` / `$pullAll` on a non-array value;
`$pullAll` on an absent field is a no-op and `$unset` drops the field. -/
def applyUpdate (d : Doc) : UpdateOp → Except Err Doc
  | .push f ids =>
    match d.get f with
    | .absent => .ok (d.setField f (.many ids))
    | .many l => .ok (d.setField f (.many (l ++ ids)))
    | .one _ => .error (.pushNonArray f)
  | .setF f i => .ok (d.setField f (.one i))
  | .unset f => .ok (d.removeField f)
  | .pullAll f ids =>
    match d.get f with
    | .many l => .ok (d.setField f (.many (l.filter (fun x => !ids.contains x))))
    | .absent => .ok d
    | .one _ => .error (.pullAllNonArray f)

/-- Update the first document matching `p`, returning the updated document
and the new collection (`none` when nothing matches). -/
def updateFirst (p : Doc → Bool) (upd : Doc → Except Err Doc) :
    List Doc → Except Err (Option (Doc × List Doc))
  | [] => .ok none
  | d :: rest =>
    if p d then
      match upd d with
      | .error e => .error e
      | .ok d' => .ok (some (d', d' :: rest))
    else
      match updateFirst p upd rest with
      | .error e => .error e
      | .ok none => .ok none
      | .ok (some (d', rest')) => .ok (some (d', d :: rest'))

/-- Source `findAndUpdate`: `findOneAndUpdate` on the id-plus-filter query with
`new: true`; an empty match raises the not-found fault.  The store is
returned unchanged on failure. -/
def findAndUpdate (svc : Service) (store : Store) (id : Nat)
    (filter : Option DocFilter) (query : UpdateOp) :
    Except Err Doc × Store × List Effect :=
  match updateFirst (buildIdFilterQueryOne id filter) (fun d => applyUpdate d query)
      store.primary with
  | .error e => (.error e, store, [.findOneAndUpdate id])
  | .ok none => (.error (.notFound svc.modelName id), store, [.findOneAndUpdate id])
  | .ok (some (entity, primary')) =>
    (.ok entity, { store with primary := primary' }, [.findOneAndUpdate id])

/-- Source `getRefCount`: count the documents of the target collection matching the
relation ids under the optional relation filter. -/
def getRefCount (svc : Service) (store : Store) (relationName : String)
    (relationIds : List Nat) (filter : Option DocFilter) :
    Except Err Nat × List Effect :=
  match getReferenceModelName svc relationName with
  | .error e => (.error e, [])
  | .ok refModel =>
    (.ok ((store.coll refModel).countP (buildIdFilterQuery relationIds filter)),
     [.targetCount relationName])

/-- Modelled from the spec (§6): `getById` of the base service (not part of
the given source file) fetches the entity by id from the primary collection
and fails with the not-found fault when absent. -/
def getById (svc : Service) (store : Store) (id : Nat) :
    Except Err Doc × List Effect :=
  match store.primary.find? (fun d => d._id == id) with
  | some d => (.ok d, [.getByIdRead id])
  | none => (.error (.notFound svc.modelName id), [.getByIdRead id])

/-- Source `addRelations`: reject virtual relations, verify the count of matching
target documents equals the number of ids, then `$push` the ids onto the
entity's reference array. -/
def addRelations (svc : Service) (store : Store) (relationName : String)
    (id : Nat) (relationIds : List Nat) (optsFilter relFilter : Option DocFilter) :
    Except Err Doc × Store × List Effect :=
  match checkForReference svc "AddRelations" relationName false with
  | .error e => (.error e, store, [])
  | .ok _ =>
    match getRefCount svc store relationName relationIds relFilter with
    | (.error e, tr) => (.error e, store, tr)
    | (.ok refCount, tr) =>
      if relationIds.length ≠ refCount then
        (.error (.unableToFindAllToAdd relationName svc.modelName), store, tr)
      else
        match findAndUpdate svc store id optsFilter (.push relationName relationIds) with
        | (r, store', tr') => (r, store', tr ++ tr')

/-- Source `setRelation`: reject virtual relations, verify exactly one matching
target document, then overwrite the entity's reference field. -/
def setRelation (svc : Service) (store : Store) (relationName : String)
    (id : Nat) (relationId : Nat) (optsFilter relFilter : Option DocFilter) :
    Except Err Doc × Store × List Effect :=
  match checkForReference svc "SetRelation" relationName false with
  | .error e => (.error e, store, [])
  | .ok _ =>
    match getRefCount svc store relationName [relationId] relFilter with
    | (.error e, tr) => (.error e, store, tr)
    | (.ok refCount, tr) =>
      if refCount ≠ 1 then
        (.error (.unableToFindToSet relationName svc.modelName), store, tr)
      else
        match findAndUpdate svc store id optsFilter (.setF relationName relationId) with
        | (r, store', tr') => (r, store', tr ++ tr')

/-- Source `removeRelation`: reject virtual relations, verify exactly one matching
target document, `$unset` the reference field, then reload the entity. -/
def removeRelation (svc : Service) (store : Store) (relationName : String)
    (id : Nat) (relationId : Nat) (optsFilter relFilter : Option DocFilter) :
    Except Err Doc × Store × List Effect :=
  match checkForReference svc "RemoveRelation" relationName false with
  | .error e => (.error e, store, [])
  | .ok _ =>
    match getRefCount svc store relationName [relationId] relFilter with
    | (.error e, tr) => (.error e, store, tr)
    | (.ok refCount, tr) =>
      if refCount ≠ 1 then
        (.error (.unableToFindToRemove relationName svc.modelName), store, tr)
      else
        match findAndUpdate svc store id optsFilter (.unset relationName) with
        | (.error e, store', tr') => (.error e, store', tr ++ tr')
        | (.ok _, store', tr') =>
          match getById svc store' id with
          | (r, tr'') => (r, store', tr ++ tr' ++ tr'')

/-- Source `removeRelations`: reject virtual relations, verify the count of
matching target documents equals the number of ids (and re-check the
virtual kind), `$pullAll` the ids from the reference array, then reload the
entity. -/
def removeRelations (svc : Service) (store : Store) (relationName : String)
    (id : Nat) (relationIds : List Nat) (optsFilter relFilter : Option DocFilter) :
    Except Err Doc × Store × List Effect :=
  match checkForReference svc "RemoveRelations" relationName false with
  | .error e => (.error e, store, [])
  | .ok _ =>
    match getRefCount svc store relationName relationIds relFilter with
    | (.error e, tr) => (.error e, store, tr)
    | (.ok refCount, tr) =>
      if relationIds.length ≠ refCount then
        (.error (.unableToFindAllToRemove relationName svc.modelName), store, tr)
      else if isVirtualPath svc.schema relationName then
        (.error (.virtualNotSupported "RemoveRelations" relationName), store, tr)
      else
        match findAndUpdate svc store id optsFilter (.pullAll relationName relationIds) with
        | (.error e, store', tr') => (.error e, store', tr ++ tr')
        | (.ok _, store', tr') =>
          match getById svc store' id with
          | (r, tr'') => (r, store', tr ++ tr' ++ tr'')

/-!
Concrete fixtures used by witnesses and counterexamples: an `Entity` model
with a direct reference array `tags` (target model `Tag`), a singular
direct reference `owner` (target model `User`), and a virtual relation
`vposts` (target model `Post`, matching local field `code` against foreign
field `ecode`).
-/

/-- The example schema. -/
def schema1 : Schema :=
  { paths := [("tags", .plain "Tag"), ("owner", .plain "User")],
    virtuals := [("vposts", some { ref := "Post", localField := "code", foreignField := "ecode" })] }

/-- The example service. -/
def svc1 : Service := { modelName := "Entity", schema := schema1 }

/-- A target document with no fields. -/
def tagDoc (i : Nat) : Doc := { _id := i, fields := [] }

/-- The example source entity: id 1, `tags` referencing 5 and 6. -/
def e1 : Doc := { _id := 1, fields := [("tags", .many [5, 6]), ("code", .one 9)] }

/-- A source entity whose `tags` reference array is empty. -/
def e2 : Doc := { _id := 2, fields := [("tags", .many [])] }

/-- The example store: `e1` in the primary collection, tags 5, 6, 7 in the
`Tag` collection, one post in the `Post` collection. -/
def store1 : Store :=
  { primary := [e1],
    collections := [("Tag", [tagDoc 5, tagDoc 6, tagDoc 7]),
                    ("Post", [{ _id := 20, fields := [("ecode", .one 9)] }])] }

/-- A query with no filter and no paging. -/
def plainQuery : RelQuery := { filter := none, skip := none, limit := none }

/-- Unfolding rule for the derived `BEq` on documents. -/
theorem doc_beq_eq_decide (a b : Doc) : (a == b) = decide (a = b) := rfl

/-- Unfolding rule for the derived `BEq` on field values. -/
theorem fieldValue_beq_eq_decide (a b : FieldValue) : (a == b) = decide (a = b) := rfl

/-- Setting a field does not change the document id. -/
theorem Doc.setField_id (d : Doc) (f : String) (v : FieldValue) :
    (d.setField f v)._id = d._id := rfl

/-- Removing a field does not change the document id. -/
theorem Doc.removeField_id (d : Doc) (f : String) :
    (d.removeField f)._id = d._id := rfl

/-- Looking up the key just written by `setAssoc` yields the new value. -/
theorem lookup_setAssoc (l : List (String × FieldValue)) (f : String) (v : FieldValue) :
    (setAssoc l f v).lookup f = some v := by
  induction l with
  | nil => simp [setAssoc, List.lookup_cons]
  | cons p rest ih =>
    obtain ⟨k, w⟩ := p
    by_cases hk : k = f
    · subst hk
      simp [setAssoc, List.lookup_cons]
    · have hbf : (f == k) = false := by
        simp [Ne.symm hk]
      simp [setAssoc, hk, List.lookup_cons, hbf, ih]

/-- Reading back a field just set yields the value set. -/
theorem Doc.get_setField (d : Doc) (f : String) (v : FieldValue) :
    (d.setField f v).get f = v := by
  unfold Doc.setField Doc.get
  simp [lookup_setAssoc]

/-- When no element satisfies the query, `findOneAndUpdate` matches
nothing. -/
theorem updateFirst_eq_none (p : Doc → Bool) (u : Doc → Except Err Doc)
    (l : List Doc) (h : ∀ d ∈ l, p d = false) : updateFirst p u l = .ok none := by
  induction l with
  | nil => rfl
  | cons d rest ih =>
    have hd : p d = false := h d (by simp)
    have ht : updateFirst p u rest = .ok none := ih (fun x hx => h x (by simp [hx]))
    simp [updateFirst, hd, ht]

/-- Decomposition of a successful `findOneAndUpdate`: the collection splits
at the first matching document, which the update rewrites in place. -/
theorem updateFirst_ok_some (p : Doc → Bool) (u : Doc → Except Err Doc) :
    ∀ (l : List Doc) (d' : Doc) (l' : List Doc),
      updateFirst p u l = .ok (some (d', l')) →
      ∃ pre d0 post, l = pre ++ d0 :: post ∧ l' = pre ++ d' :: post ∧
        (∀ x ∈ pre, p x = false) ∧ p d0 = true ∧ u d0 = .ok d' := by
  intro l
  induction l with
  | nil => intro d' l' h; simp [updateFirst] at h
  | cons d rest ih =>
    intro d' l' h
    rw [updateFirst] at h
    by_cases hp : p d = true
    · rw [if_pos hp] at h
      cases hu : u d with
      | error e => rw [hu] at h; cases h
      | ok d2 =>
        rw [hu] at h
        simp only [Except.ok.injEq, Option.some.injEq, Prod.mk.injEq] at h
        obtain ⟨h1, h2⟩ := h
        refine ⟨[], d, rest, by simp, ?_, by simp, hp, ?_⟩
        · rw [← h1, ← h2]; simp
        · rw [hu, h1]
    · rw [if_neg hp] at h
      cases hr : updateFirst p u rest with
      | error e => rw [hr] at h; cases h
      | ok o =>
        rw [hr] at h
        cases o with
        | none => cases h
        | some pair =>
          obtain ⟨d2, rest2⟩ := pair
          simp only [Except.ok.injEq, Option.some.injEq, Prod.mk.injEq] at h
          obtain ⟨h1, h2⟩ := h
          obtain ⟨pre, d0, post, he, he', hpre, hp0, hu0⟩ := ih d2 rest2 hr
          refine ⟨d :: pre, d0, post, by rw [he]; simp, ?_, ?_, hp0, ?_⟩
          · rw [← h2, he']; simp [h1]
          · intro x hx
            rcases List.mem_cons.mp hx with hxx | hxx
            · subst hxx
              exact Bool.eq_false_iff.mpr hp
            · exact hpre x hxx
          · rw [hu0, h1]

/-- `Map.set` with a key absent from the map appends the entry. -/
theorem mapSet_append {α : Type} (m : List (Doc × α)) (k : Doc) (v : α)
    (h : ∀ p ∈ m, p.1 ≠ k) : mapSet m k v = m ++ [(k, v)] := by
  induction m with
  | nil => rfl
  | cons p rest ih =>
    obtain ⟨k1, v1⟩ := p
    have hp : k1 ≠ k := h (k1, v1) (by simp)
    simp [mapSet, doc_beq_eq_decide, hp, ih (fun q hq => h q (by simp [hq]))]

/-- A successful batched fold over pairwise-distinct entities extends the
accumulated map with one entry per entity, in input order, each carrying
the single-entity result. -/
theorem batchReduceGo_ok {α : Type} (step : Doc → Except Err α × List Effect) :
    ∀ (dtos : List Doc) (m0 : List (Doc × α)) (tr0 : List Effect)
      (m : List (Doc × α)),
      dtos.Nodup → (∀ d ∈ dtos, ∀ p ∈ m0, p.1 ≠ d) →
      (batchReduceGo step dtos m0 tr0).1 = .ok m →
      m.map Prod.fst = m0.map Prod.fst ++ dtos ∧
        (∀ p ∈ m, p ∈ m0 ∨ (step p.1).1 = .ok p.2) := by
  intro dtos
  induction dtos with
  | nil =>
    intro m0 tr0 m _ _ h
    rw [batchReduceGo] at h
    injection h with h
    subst h
    exact ⟨by simp, fun p hp => .inl hp⟩
  | cons d rest ih =>
    intro m0 tr0 m hnd hdisj h
    rw [batchReduceGo] at h
    rcases hsd : step d with ⟨r, tr1⟩
    rw [hsd] at h
    cases r with
    | error e => cases h
    | ok v =>
      change (batchReduceGo step rest (mapSet m0 d v) (tr0 ++ tr1)).1 = .ok m at h
      have hset : mapSet m0 d v = m0 ++ [(d, v)] :=
        mapSet_append m0 d v (fun p hp => hdisj d (by simp) p hp)
      rw [hset] at h
      have hdisj2 : ∀ x ∈ rest, ∀ p ∈ m0 ++ [(d, v)], p.1 ≠ x := by
        intro x hx p hp
        rcases List.mem_append.mp hp with hh | hh
        · exact hdisj x (by simp [hx]) p hh
        · have hpv : p = (d, v) := by simpa using hh
          subst hpv
          intro he
          have hdx : d = x := he
          exact (List.nodup_cons.mp hnd).1 (by rw [hdx]; exact hx)
      obtain ⟨h1, h2⟩ := ih (m0 ++ [(d, v)]) (tr0 ++ tr1) m
        (List.nodup_cons.mp hnd).2 hdisj2 h
      constructor
      · rw [h1]; simp
      · intro p hp
        rcases h2 p hp with hin | hok
        · rcases List.mem_append.mp hin with hh | hh
          · exact .inl hh
          · have : p = (d, v) := by simpa using hh
            subst this
            right
            rw [hsd]
        · exact .inr hok

/-- The mutation frame: target collections untouched and every primary
document whose id differs from the mutated id left in place. -/
def WritesOnlyDoc (store store' : Store) (id : Nat) : Prop :=
  store'.collections = store.collections ∧
  store'.primary.length = store.primary.length ∧
  ∀ (j : Nat) (d : Doc),
    store.primary[j]? = some d → d._id ≠ id → store'.primary[j]? = some d

/-- The frame holds when nothing was written. -/
theorem WritesOnlyDoc_refl (store : Store) (id : Nat) :
    WritesOnlyDoc store store id :=
  ⟨rfl, rfl, fun _ _ h _ => h⟩

/-- Source `findAndUpdate` writes at most the single document whose id is
the mutated id. -/
theorem findAndUpdate_frame (svc : Service) (store : Store) (id : Nat)
    (f : Option DocFilter) (q : UpdateOp) :
    WritesOnlyDoc store (findAndUpdate svc store id f q).2.1 id := by
  unfold findAndUpdate
  cases hu : updateFirst (buildIdFilterQueryOne id f) (fun d => applyUpdate d q)
      store.primary with
  | error e => exact WritesOnlyDoc_refl store id
  | ok o =>
    cases o with
    | none => exact WritesOnlyDoc_refl store id
    | some pair =>
      obtain ⟨d', primary'⟩ := pair
      obtain ⟨pre, d0, post, hl, hl', hpre, hp0, _⟩ :=
        updateFirst_ok_some _ _ store.primary d' primary' hu
      have hid0 : d0._id = id := by
        have hb : (d0._id == id) = true := by
          have hpp := hp0
          unfold buildIdFilterQueryOne at hpp
          exact ((Bool.and_eq_true _ _).mp hpp).1
        simpa using hb
      show WritesOnlyDoc store { store with primary := primary' } id
      refine ⟨rfl, ?_, ?_⟩
      · show primary'.length = store.primary.length
        rw [hl, hl']; simp
      · intro j d hj hne
        show primary'[j]? = some d
        rw [hl'] ; rw [hl] at hj
        rcases Nat.lt_trichotomy j pre.length with hlt | heq | hgt
        · rw [List.getElem?_append_left hlt] at hj ⊢
          exact hj
        · subst heq
          rw [List.getElem?_append_right (Nat.le_refl _)] at hj
          simp at hj
          exact absurd (hj ▸ hid0) hne
        · have hge : pre.length ≤ j := Nat.le_of_lt hgt
          rw [List.getElem?_append_right hge] at hj ⊢
          rcases Nat.exists_eq_add_of_lt hgt with ⟨k, hk⟩
          have hjk : j - pre.length = k + 1 := by omega
          rw [hjk] at hj ⊢
          simpa using hj

/-- Over a collection with pairwise-distinct ids, an id-in-set count is
bounded by the number of distinct ids in the set. -/
theorem countMatch_le (coll : List Doc) (ids : List Nat) (q : Doc → Bool)
    (hnd : (coll.map Doc._id).Nodup) :
    coll.countP (fun d => ids.contains d._id && q d) ≤ ids.dedup.length := by
  rw [List.countP_eq_length_filter]
  have hsub : (coll.filter (fun d => ids.contains d._id && q d)).Sublist coll :=
    List.filter_sublist coll
  have hndm : ((coll.filter (fun d => ids.contains d._id && q d)).map Doc._id).Nodup :=
    (hsub.map Doc._id).nodup hnd
  have hlen : (coll.filter (fun d => ids.contains d._id && q d)).length
      = ((coll.filter (fun d => ids.contains d._id && q d)).map Doc._id).length := by
    simp
  rw [hlen, ← List.toFinset_card_of_nodup hndm, ← List.card_toFinset ids]
  apply Finset.card_le_card
  intro x hx
  rw [List.mem_toFinset] at hx ⊢
  rcases List.mem_map.mp hx with ⟨dd, hdd, rfl⟩
  have hpd := List.of_mem_filter hdd
  have hcont := ((Bool.and_eq_true _ _).mp hpd).1
  simpa using hcont

/-- A list with a duplicate has strictly fewer distinct elements than
elements. -/
theorem dedup_length_lt (ids : List Nat) (h : ¬ids.Nodup) :
    ids.dedup.length < ids.length := by
  rcases Nat.lt_or_ge ids.dedup.length ids.length with hlt | hge
  · exact hlt
  · exfalso
    apply h
    have hle := (List.dedup_sublist ids).length_le
    have heq := (List.dedup_sublist ids).eq_of_length (Nat.le_antisymm hle hge)
    exact List.dedup_eq_self.mp heq

/-- Over a collection with pairwise-distinct ids, an id-in-set count never
reaches the length of a list of ids containing a duplicate. -/
theorem countMatch_lt (coll : List Doc) (ids : List Nat) (q : Doc → Bool)
    (hnd : (coll.map Doc._id).Nodup) (hdup : ¬ids.Nodup) :
    coll.countP (fun d => ids.contains d._id && q d) < ids.length :=
  lt_of_le_of_lt (countMatch_le coll ids q hnd) (dedup_length_lt ids hdup)

/-- When the id-in-set count over a collection with pairwise-distinct ids
reaches the full length of the id list, every listed id has a matching
document. -/
theorem countMatch_complete (coll : List Doc) (ids : List Nat) (q : Doc → Bool)
    (hnd : (coll.map Doc._id).Nodup)
    (hc : coll.countP (fun d => ids.contains d._id && q d) = ids.length) :
    ∀ i ∈ ids, ∃ d ∈ coll, d._id = i ∧ q d = true := by
  intro i hi
  have hsub : (coll.filter (fun d => ids.contains d._id && q d)).Sublist coll :=
    List.filter_sublist coll
  have hndm : ((coll.filter (fun d => ids.contains d._id && q d)).map Doc._id).Nodup :=
    (hsub.map Doc._id).nodup hnd
  have hsubset :
      ((coll.filter (fun d => ids.contains d._id && q d)).map Doc._id).toFinset ⊆
        ids.toFinset := by
    intro x hx
    rw [List.mem_toFinset] at hx ⊢
    rcases List.mem_map.mp hx with ⟨dd, hdd, rfl⟩
    have hpd := List.of_mem_filter hdd
    have hcont := ((Bool.and_eq_true _ _).mp hpd).1
    simpa using hcont
  have hlenm : (coll.filter (fun d => ids.contains d._id && q d)).length = ids.length := by
    rw [← List.countP_eq_length_filter]
    exact hc
  have hcard : ids.toFinset.card ≤
      ((coll.filter (fun d => ids.contains d._id && q d)).map Doc._id).toFinset.card := by
    rw [List.card_toFinset ids, List.toFinset_card_of_nodup hndm]
    calc ids.dedup.length ≤ ids.length := (List.dedup_sublist ids).length_le
      _ = ((coll.filter (fun d => ids.contains d._id && q d)).map Doc._id).length := by
          rw [List.length_map]; exact hlenm.symm
  have hfin := Finset.eq_of_subset_of_card_le hsubset hcard
  have hmem : i ∈ (coll.filter (fun d => ids.contains d._id && q d)).map Doc._id := by
    rw [← List.mem_toFinset, hfin, List.mem_toFinset]
    exact hi
  rcases List.mem_map.mp hmem with ⟨d, hd, hdi⟩
  refine ⟨d, List.mem_of_mem_filter hd, hdi, ?_⟩
  have hpd := List.of_mem_filter hd
  exact ((Bool.and_eq_true _ _).mp hpd).2

/-- C1: for a relation name that resolves to neither a declared reference
path nor a virtual path, every public operation (single and batched) fails
with the unable-to-find-reference error before issuing any query to the
store (empty effect list), and the mutations leave the store untouched. -/
theorem c1_unknown_relation_rejected_before_store
    (svc : Service) (store : Store) (r : String) (dto : Doc) (dtos : List Doc)
    (f : Option DocFilter) (q : RelQuery) (id rid : Nat) (ids : List Nat)
    (rf : Option DocFilter)
    (h1 : isReferencePath svc.schema r = false)
    (h2 : isVirtualPath svc.schema r = false) :
    findRelation svc store r dto f =
      (.error (.unableToFindReference r svc.modelName), []) ∧
    queryRelations svc store r dto q =
      (.error (.unableToFindReference r svc.modelName), []) ∧
    aggregateRelations svc store r dto f =
      (.error (.unableToFindReference r svc.modelName), []) ∧
    countRelations svc store r dto f =
      (.error (.unableToFindReference r svc.modelName), []) ∧
    findRelationMany svc store r dtos f =
      (.error (.unableToFindReference r svc.modelName), []) ∧
    queryRelationsMany svc store r dtos q =
      (.error (.unableToFindReference r svc.modelName), []) ∧
    aggregateRelationsMany svc store r dtos f =
      (.error (.unableToFindReference r svc.modelName), []) ∧
    countRelationsMany svc store r dtos f =
      (.error (.unableToFindReference r svc.modelName), []) ∧
    addRelations svc store r id ids f rf =
      (.error (.unableToFindReference r svc.modelName), store, []) ∧
    setRelation svc store r id rid f rf =
      (.error (.unableToFindReference r svc.modelName), store, []) ∧
    removeRelation svc store r id rid f rf =
      (.error (.unableToFindReference r svc.modelName), store, []) ∧
    removeRelations svc store r id ids f rf =
      (.error (.unableToFindReference r svc.modelName), store, []) := by
  have hc : ∀ (op : String) (av : Bool), checkForReference svc op r av =
      .error (.unableToFindReference r svc.modelName) := by
    intro op av
    simp [checkForReference, h1, h2]
  refine ⟨?_, ?_, ?_, ?_, ?_, ?_, ?_, ?_, ?_, ?_, ?_, ?_⟩ <;>
    simp [findRelation, queryRelations, aggregateRelations, countRelations,
      findRelationMany, queryRelationsMany, aggregateRelationsMany,
      countRelationsMany, addRelations, setRelation, removeRelation,
      removeRelations, hc]

/-- Witness for C1 at the concrete fixtures with an undeclared relation
name. -/
theorem c1_witness :
    isReferencePath svc1.schema "nope" = false ∧
    isVirtualPath svc1.schema "nope" = false ∧
    countRelations svc1 store1 "nope" e1 none =
      (.error (.unableToFindReference "nope" "Entity"), []) :=
  ⟨by decide, by decide,
    (c1_unknown_relation_rejected_before_store svc1 store1 "nope" e1 [] none
      plainQuery 1 5 [] none (by decide) (by decide)).2.2.2.1⟩

/-- C5: on a virtual-lookup relation every mutation operation fails with
the not-supported-for-virtual-relation fault before any store interaction,
regardless of the ids passed, while the reference check of the read
operations (which passes `allowVirtual`) accepts both virtual-lookup and
direct-reference relations. -/
theorem c5_virtual_mutations_rejected_reads_accept
    (svc : Service) (store : Store) (r : String) (id rid : Nat) (ids : List Nat)
    (f rf : Option DocFilter)
    (h1 : isReferencePath svc.schema r = false)
    (h2 : isVirtualPath svc.schema r = true) :
    addRelations svc store r id ids f rf =
      (.error (.virtualNotSupported "AddRelations" r), store, []) ∧
    setRelation svc store r id rid f rf =
      (.error (.virtualNotSupported "SetRelation" r), store, []) ∧
    removeRelation svc store r id rid f rf =
      (.error (.virtualNotSupported "RemoveRelation" r), store, []) ∧
    removeRelations svc store r id ids f rf =
      (.error (.virtualNotSupported "RemoveRelations" r), store, []) ∧
    (∀ op : String, checkForReference svc op r true = .ok ()) ∧
    (∀ (svc2 : Service) (op r2 : String), isReferencePath svc2.schema r2 = true →
      checkForReference svc2 op r2 true = .ok ()) := by
  have hc : ∀ op : String, checkForReference svc op r false =
      .error (.virtualNotSupported op r) := by
    intro op
    simp [checkForReference, h1, h2]
  refine ⟨?_, ?_, ?_, ?_, ?_, ?_⟩
  · simp [addRelations, hc]
  · simp [setRelation, hc]
  · simp [removeRelation, hc]
  · simp [removeRelations, hc]
  · intro op; simp [checkForReference, h1, h2]
  · intro svc2 op r2 hr; simp [checkForReference, hr]

/-- Witness for C5 at the concrete fixtures with the virtual relation
`vposts`. -/
theorem c5_witness :
    isReferencePath svc1.schema "vposts" = false ∧
    isVirtualPath svc1.schema "vposts" = true ∧
    setRelation svc1 store1 "vposts" 1 20 none none =
      (.error (.virtualNotSupported "SetRelation" "vposts"), store1, []) :=
  ⟨by decide, by decide,
    (c5_virtual_mutations_rejected_reads_accept svc1 store1 "vposts" 1 20 [20]
      none none (by decide) (by decide)).2.1⟩

/-- C2: when the count of target documents matching the relation id(s)
under the optional relation filter differs from the expected count (list
length for add/removeRelations, exactly one for set/removeRelation), the
mutation fails with its unable-to-find fault and the store is returned
unchanged: the update of the source entity is never reached. -/
theorem c2_count_mismatch_blocks_mutation
    (svc : Service) (store : Store) (r m : String) (id rid : Nat) (ids : List Nat)
    (f rf : Option DocFilter)
    (href : isReferencePath svc.schema r = true)
    (hm : getReferenceModelName svc r = .ok m)
    (hadd : (store.coll m).countP (buildIdFilterQuery ids rf) ≠ ids.length)
    (hone : (store.coll m).countP (buildIdFilterQuery [rid] rf) ≠ 1) :
    addRelations svc store r id ids f rf =
      (.error (.unableToFindAllToAdd r svc.modelName), store, [.targetCount r]) ∧
    setRelation svc store r id rid f rf =
      (.error (.unableToFindToSet r svc.modelName), store, [.targetCount r]) ∧
    removeRelation svc store r id rid f rf =
      (.error (.unableToFindToRemove r svc.modelName), store, [.targetCount r]) ∧
    removeRelations svc store r id ids f rf =
      (.error (.unableToFindAllToRemove r svc.modelName), store, [.targetCount r]) := by
  have hcheck : ∀ op : String, checkForReference svc op r false = .ok () := by
    intro op; simp [checkForReference, href]
  have hrc : ∀ jds : List Nat, getRefCount svc store r jds rf =
      (.ok ((store.coll m).countP (buildIdFilterQuery jds rf)), [.targetCount r]) := by
    intro jds; simp [getRefCount, hm]
  have haddne : ids.length ≠ (store.coll m).countP (buildIdFilterQuery ids rf) :=
    Ne.symm hadd
  refine ⟨?_, ?_, ?_, ?_⟩
  · simp [addRelations, hcheck, hrc, haddne]
  · simp [setRelation, hcheck, hrc, hone]
  · simp [removeRelation, hcheck, hrc, hone]
  · simp [removeRelations, hcheck, hrc, haddne]

/-- Witness for C2: id 99 is absent from the `Tag` collection, so both the
list count (1 of 2) and the single count (0 of 1) mismatch. -/
theorem c2_witness :
    (store1.coll "Tag").countP (buildIdFilterQuery [5, 99] none) ≠ [5, 99].length ∧
    (store1.coll "Tag").countP (buildIdFilterQuery [99] none) ≠ 1 ∧
    setRelation svc1 store1 "tags" 1 99 none none =
      (.error (.unableToFindToSet "tags" "Entity"), store1, [.targetCount "tags"]) :=
  ⟨by decide, by decide,
    (c2_count_mismatch_blocks_mutation svc1 store1 "tags" "Tag" 1 99 [5, 99]
      none none (by decide) (by rfl) (by decide) (by decide)).2.1⟩

/-- C10: a duplicated id in the relation ids list makes the verification
count (which counts distinct matching documents) fall short of the list
length, so addRelations and removeRelations fail with the
unable-to-find-all fault even when every listed id exists in the target
collection, and the store is unchanged. -/
theorem c10_duplicate_ids_always_fail
    (svc : Service) (store : Store) (r m : String) (id : Nat) (ids : List Nat)
    (f rf : Option DocFilter)
    (href : isReferencePath svc.schema r = true)
    (hm : getReferenceModelName svc r = .ok m)
    (hnd : ((store.coll m).map Doc._id).Nodup)
    (hdup : ¬ids.Nodup) :
    addRelations svc store r id ids f rf =
      (.error (.unableToFindAllToAdd r svc.modelName), store, [.targetCount r]) ∧
    removeRelations svc store r id ids f rf =
      (.error (.unableToFindAllToRemove r svc.modelName), store, [.targetCount r]) := by
  have hlt : (store.coll m).countP (buildIdFilterQuery ids rf) < ids.length :=
    countMatch_lt (store.coll m) ids (optHolds rf) hnd hdup
  have hne : ids.length ≠ (store.coll m).countP (buildIdFilterQuery ids rf) :=
    Ne.symm (Nat.ne_of_lt hlt)
  have hcheck : ∀ op : String, checkForReference svc op r false = .ok () := by
    intro op; simp [checkForReference, href]
  have hrc : getRefCount svc store r ids rf =
      (.ok ((store.coll m).countP (buildIdFilterQuery ids rf)), [.targetCount r]) := by
    simp [getRefCount, hm]
  constructor
  · simp [addRelations, hcheck, hrc, hne]
  · simp [removeRelations, hcheck, hrc, hne]

/-- Witness for C10: both ids of `[5, 5]` exist in the `Tag` collection,
yet addRelations fails. -/
theorem c10_witness :
    (5 ∈ (store1.coll "Tag").map Doc._id) ∧
    ¬[5, 5].Nodup ∧
    addRelations svc1 store1 "tags" 1 [5, 5] none none =
      (.error (.unableToFindAllToAdd "tags" "Entity"), store1, [.targetCount "tags"]) :=
  ⟨by decide, by decide,
    (c10_duplicate_ids_always_fail svc1 store1 "tags" "Tag" 1 [5, 5] none none
      (by decide) (by rfl) (by decide) (by decide)).1⟩

/-- C3 counterexample: for a source entity whose `tags` reference array is
empty, countRelations and aggregateRelations do issue a query against the
target collection (their effect lists are nonempty count / aggregate
queries), contradicting the claim that the empty results are produced
without issuing any target-collection query. -/
theorem c3_counterexample :
    countRelations svc1 store1 "tags" e2 none = (.ok 0, [.targetCount "tags"]) ∧
    aggregateRelations svc1 store1 "tags" e2 none =
      (.ok .empty, [.targetAggregate "tags"]) ∧
    ([Effect.targetCount "tags"] ≠ ([] : List Effect)) ∧
    ([Effect.targetAggregate "tags"] ≠ ([] : List Effect)) := by
  refine ⟨by rfl, by rfl, by decide, by decide⟩

/-- C3 amended: with an empty or absent foreign-key value, countRelations
returns 0 and aggregateRelations returns the empty aggregate response, but
only after issuing the target-collection query (whose reference filter
matches nothing); the no-query path requires the reference filter to be
unconstructible, which cannot happen for a declared reference path. -/
theorem c3_empty_value_zero_after_query
    (svc : Service) (store : Store) (r m : String) (dto : Doc)
    (f : Option DocFilter)
    (href : isReferencePath svc.schema r = true)
    (hm : getReferenceModelName svc r = .ok m)
    (hval : dto.get r = .many [] ∨ dto.get r = .absent) :
    countRelations svc store r dto f = (.ok 0, [.targetCount r]) ∧
    aggregateRelations svc store r dto f = (.ok .empty, [.targetAggregate r]) := by
  have hcheck : ∀ op : String, checkForReference svc op r true = .ok () := by
    intro op; simp [checkForReference, href]
  have hfil : getReferenceFilter svc r dto f =
      .ok (some (getObjectIdReferenceFilter r dto f)) := by
    simp [getReferenceFilter, href]
  have hzero : ∀ d, getObjectIdReferenceFilter r dto f d = false := by
    intro d
    unfold getObjectIdReferenceFilter mergeFilter
    rcases hval with hv | hv <;> simp [hv]
  have hcount : (store.coll m).countP (getObjectIdReferenceFilter r dto f) = 0 :=
    List.countP_eq_zero.mpr (fun d _ => by simp [hzero d])
  have hfilter : (store.coll m).filter (getObjectIdReferenceFilter r dto f) = [] :=
    List.filter_eq_nil_iff.mpr (fun d _ => by simp [hzero d])
  constructor
  · simp [countRelations, hcheck, hm, hfil, hcount]
  · simp [aggregateRelations, hcheck, hm, hfil, hfilter]

/-- Witness for C3 (amended form) at the fixture entity with an empty
reference array. -/
theorem c3_witness :
    isReferencePath svc1.schema "tags" = true ∧
    e2.get "tags" = .many [] ∧
    countRelations svc1 store1 "tags" e2 none = (.ok 0, [.targetCount "tags"]) :=
  ⟨by decide, by decide,
    (c3_empty_value_zero_after_query svc1 store1 "tags" "Tag" e2 none
      (by decide) (by rfl) (.inl (by decide))).1⟩

/-- A store whose primary collection is empty (the source entity has been
deleted) while the `Tag` collection still holds three documents. -/
def storeGone : Store :=
  { primary := [], collections := [("Tag", [tagDoc 5, tagDoc 6, tagDoc 7])] }

/-- C4 counterexample: countRelations does not re-fetch the source entity
from the primary collection: although the entity is gone, it queries the
target collection with the passed entity's stale field values and returns
2 instead of the natural empty result 0. -/
theorem c4_counterexample :
    storeGone.primary.find? (fun d => d._id == e1._id) = none ∧
    countRelations svc1 storeGone "tags" e1 none = (.ok 2, [.targetCount "tags"]) ∧
    (2 : Nat) ≠ 0 := by
  refine ⟨by rfl, by rfl, by decide⟩

/-- C4 amended: findRelation and queryRelations re-fetch the source entity
by id and resolve to the natural empty result when it no longer exists,
while aggregateRelations and countRelations never consult the primary
collection at all: their result is invariant under any replacement of it
(they use the passed entity's field values directly). -/
theorem c4_refetch_only_find_and_query
    (svc : Service) (store : Store) (r : String) (dto : Doc)
    (f : Option DocFilter) (q : RelQuery)
    (hcheck : isReferencePath svc.schema r = true ∨ isVirtualPath svc.schema r = true)
    (hgone : store.primary.find? (fun d => d._id == dto._id) = none) :
    findRelation svc store r dto f = (.ok .nil, [.findById dto._id]) ∧
    queryRelations svc store r dto q = (.ok (.many []), [.findById dto._id]) ∧
    (∀ p2 : List Doc, countRelations svc { store with primary := p2 } r dto f =
      countRelations svc store r dto f) ∧
    (∀ p2 : List Doc, aggregateRelations svc { store with primary := p2 } r dto f =
      aggregateRelations svc store r dto f) := by
  have hok : ∀ op : String, checkForReference svc op r true = .ok () := by
    intro op
    unfold checkForReference
    rcases hcheck with h | h
    · rw [h]; simp
    · rw [h]
      by_cases h2 : isReferencePath svc.schema r <;> simp [h2]
  refine ⟨?_, ?_, ?_, ?_⟩
  · simp [findRelation, hok, hgone]
  · simp [queryRelations, hok, hgone]
  · intro p2
    simp only [countRelations, hok]
    cases hm : getReferenceModelName svc r with
    | error e => rfl
    | ok m =>
      cases hf : getReferenceFilter svc r dto f with
      | error e => rfl
      | ok o => cases o <;> rfl
  · intro p2
    simp only [aggregateRelations, hok]
    cases hm : getReferenceModelName svc r with
    | error e => rfl
    | ok m =>
      cases hf : getReferenceFilter svc r dto f with
      | error e => rfl
      | ok o => cases o <;> rfl

/-- Witness for C4 (amended form): the deleted entity resolves to the empty
populate result and the empty list. -/
theorem c4_witness :
    (isReferencePath svc1.schema "tags" = true ∨ isVirtualPath svc1.schema "tags" = true) ∧
    storeGone.primary.find? (fun d => d._id == e1._id) = none ∧
    findRelation svc1 storeGone "tags" e1 none = (.ok .nil, [.findById 1]) ∧
    queryRelations svc1 storeGone "tags" e1 plainQuery = (.ok (.many []), [.findById 1]) :=
  have h := c4_refetch_only_find_and_query svc1 storeGone "tags" e1 none plainQuery
    (.inl (by decide)) (by rfl)
  ⟨.inl (by decide), by rfl, h.1, h.2.1⟩

/-- C6: after the relation-target verification succeeds, a mutation whose
source-entity id combined with the optional caller filter matches no
document of the primary collection raises the explicit not-found fault,
leaving the store unchanged. -/
theorem c6_missing_entity_not_found
    (svc : Service) (store : Store) (r m : String) (id rid : Nat) (ids : List Nat)
    (f rf : Option DocFilter)
    (href : isReferencePath svc.schema r = true)
    (hnv : isVirtualPath svc.schema r = false)
    (hm : getReferenceModelName svc r = .ok m)
    (hcadd : (store.coll m).countP (buildIdFilterQuery ids rf) = ids.length)
    (hcone : (store.coll m).countP (buildIdFilterQuery [rid] rf) = 1)
    (hmiss : ∀ d ∈ store.primary, buildIdFilterQueryOne id f d = false) :
    addRelations svc store r id ids f rf =
      (.error (.notFound svc.modelName id), store, [.targetCount r, .findOneAndUpdate id]) ∧
    setRelation svc store r id rid f rf =
      (.error (.notFound svc.modelName id), store, [.targetCount r, .findOneAndUpdate id]) ∧
    removeRelation svc store r id rid f rf =
      (.error (.notFound svc.modelName id), store, [.targetCount r, .findOneAndUpdate id]) ∧
    removeRelations svc store r id ids f rf =
      (.error (.notFound svc.modelName id), store, [.targetCount r, .findOneAndUpdate id]) := by
  have hcheck : ∀ op : String, checkForReference svc op r false = .ok () := by
    intro op; simp [checkForReference, href]
  have hrc : ∀ jds : List Nat, getRefCount svc store r jds rf =
      (.ok ((store.coll m).countP (buildIdFilterQuery jds rf)), [.targetCount r]) := by
    intro jds; simp [getRefCount, hm]
  have hfu : ∀ q : UpdateOp, findAndUpdate svc store id f q =
      (.error (.notFound svc.modelName id), store, [.findOneAndUpdate id]) := by
    intro q
    unfold findAndUpdate
    rw [updateFirst_eq_none _ _ store.primary hmiss]
  refine ⟨?_, ?_, ?_, ?_⟩
  · simp [addRelations, hcheck, hrc, hcadd, hfu]
  · simp [setRelation, hcheck, hrc, hcone, hfu]
  · simp [removeRelation, hcheck, hrc, hcone, hfu]
  · simp [removeRelations, hcheck, hrc, hcadd, hnv, hfu]

/-- Witness for C6: entity id 42 does not exist in the primary collection
while the target verification counts match. -/
theorem c6_witness :
    (store1.coll "Tag").countP (buildIdFilterQuery [5, 6] none) = [5, 6].length ∧
    (store1.coll "Tag").countP (buildIdFilterQuery [5] none) = 1 ∧
    (∀ d ∈ store1.primary, buildIdFilterQueryOne 42 none d = false) ∧
    addRelations svc1 store1 "tags" 42 [5, 6] none none =
      (.error (.notFound "Entity" 42), store1, [.targetCount "tags", .findOneAndUpdate 42]) :=
  ⟨by decide, by decide, by decide,
    (c6_missing_entity_not_found svc1 store1 "tags" "Tag" 42 5 [5, 6] none none
      (by decide) (by decide) (by rfl) (by decide) (by decide) (by decide)).1⟩

/-- Specialisation of the batched fold to an empty initial map. -/
theorem batch_of_ok {α : Type} (step : Doc → Except Err α × List Effect)
    (dtos : List Doc) (m : List (Doc × α)) (hnd : dtos.Nodup)
    (h : (batchReduceGo step dtos [] []).1 = .ok m) :
    m.map Prod.fst = dtos ∧ ∀ p ∈ m, (step p.1).1 = .ok p.2 := by
  obtain ⟨h1, h2⟩ := batchReduceGo_ok step dtos [] [] m hnd (by simp) h
  refine ⟨by simpa using h1, fun p hp => ?_⟩
  rcases h2 p hp with hin | hok
  · cases hin
  · exact hok

/-- C7 counterexample: with the same source entity passed twice, the
batched map collapses the duplicate key, yielding one entry for two input
entities instead of one entry per input entity. -/
theorem c7_counterexample :
    (findRelationMany svc1 store1 "tags" [e1, e1] none).1 =
      .ok [(e1, .many [tagDoc 5, tagDoc 6])] ∧
    [(e1, PopResult.many [tagDoc 5, tagDoc 6])].length = 1 ∧
    [e1, e1].length = 2 ∧ (1 : Nat) ≠ 2 := by
  refine ⟨by rfl, by rfl, by rfl, by decide⟩

/-- C7 amended: for pairwise-distinct source entities, every batched read
operation that returns a map yields exactly one entry per input entity,
keyed by the entities in input order, each value being the result of the
single-entity operation applied independently (even when that result is
empty). -/
theorem c7_batched_reads_ordered_per_entity
    (svc : Service) (store : Store) (r : String) (dtos : List Doc)
    (f : Option DocFilter) (q : RelQuery)
    (mf mq : List (Doc × PopResult)) (ma : List (Doc × AggResponse))
    (mc : List (Doc × Nat))
    (hnd : dtos.Nodup)
    (hf : (findRelationMany svc store r dtos f).1 = .ok mf)
    (hq : (queryRelationsMany svc store r dtos q).1 = .ok mq)
    (ha : (aggregateRelationsMany svc store r dtos f).1 = .ok ma)
    (hc : (countRelationsMany svc store r dtos f).1 = .ok mc) :
    (mf.map Prod.fst = dtos ∧
      ∀ p ∈ mf, (findRelation svc store r p.1 f).1 = .ok p.2) ∧
    (mq.map Prod.fst = dtos ∧
      ∀ p ∈ mq, (queryRelations svc store r p.1 q).1 = .ok p.2) ∧
    (ma.map Prod.fst = dtos ∧
      ∀ p ∈ ma, (aggregateRelations svc store r p.1 f).1 = .ok p.2) ∧
    (mc.map Prod.fst = dtos ∧
      ∀ p ∈ mc, (countRelations svc store r p.1 f).1 = .ok p.2) := by
  have hf2 : (batchReduceGo (fun d => findRelation svc store r d f) dtos [] []).1 =
      .ok mf := by
    unfold findRelationMany at hf
    cases hcr : checkForReference svc "FindRelation" r true with
    | error e => rw [hcr] at hf; exact absurd hf (by simp)
    | ok u => rw [hcr] at hf; exact hf
  have hq2 : (batchReduceGo (fun d => queryRelations svc store r d q) dtos [] []).1 =
      .ok mq := by
    unfold queryRelationsMany at hq
    cases hcr : checkForReference svc "QueryRelations" r true with
    | error e => rw [hcr] at hq; exact absurd hq (by simp)
    | ok u => rw [hcr] at hq; exact hq
  have ha2 : (batchReduceGo (fun d => aggregateRelations svc store r d f) dtos [] []).1 =
      .ok ma := by
    unfold aggregateRelationsMany at ha
    cases hcr : checkForReference svc "AggregateRelations" r true with
    | error e => rw [hcr] at ha; exact absurd ha (by simp)
    | ok u =>
      rw [hcr] at ha
      cases hmm : getReferenceModelName svc r with
      | error e => rw [hmm] at ha; exact absurd ha (by simp)
      | ok m => rw [hmm] at ha; exact ha
  have hc2 : (batchReduceGo (fun d => countRelations svc store r d f) dtos [] []).1 =
      .ok mc := by
    unfold countRelationsMany at hc
    cases hcr : checkForReference svc "CountRelations" r true with
    | error e => rw [hcr] at hc; exact absurd hc (by simp)
    | ok u => rw [hcr] at hc; exact hc
  exact ⟨batch_of_ok _ dtos mf hnd hf2, batch_of_ok _ dtos mq hnd hq2,
    batch_of_ok _ dtos ma hnd ha2, batch_of_ok _ dtos mc hnd hc2⟩

/-- Witness for C7 (amended form) on the two-entity batch `[e1, e2]`: the
batched results pair each entity, in order, with its single-entity result
(empty for `e2`). -/
theorem c7_witness :
    [e1, e2].Nodup ∧
    (findRelationMany svc1 store1 "tags" [e1, e2] none).1 =
      .ok [(e1, .many [tagDoc 5, tagDoc 6]), (e2, .nil)] ∧
    [(e1, PopResult.many [tagDoc 5, tagDoc 6]), (e2, PopResult.nil)].map Prod.fst =
      [e1, e2] ∧
    ∀ p ∈ [(e1, PopResult.many [tagDoc 5, tagDoc 6]), (e2, PopResult.nil)],
      (findRelation svc1 store1 "tags" p.1 none).1 = .ok p.2 :=
  have h := c7_batched_reads_ordered_per_entity svc1 store1 "tags" [e1, e2] none
    plainQuery [(e1, .many [tagDoc 5, tagDoc 6]), (e2, .nil)]
    [(e1, .many [tagDoc 5, tagDoc 6]), (e2, .many [])] [(e1, .row 2), (e2, .empty)]
    [(e1, 2), (e2, 0)] (by decide) (by rfl) (by rfl) (by rfl) (by rfl)
  ⟨by decide, by rfl, h.1.1, h.1.2⟩

/-- Source `findAndUpdate` performs exactly one store interaction: the
primary-collection update. -/
theorem findAndUpdate_trace (svc : Service) (store : Store) (id : Nat)
    (f : Option DocFilter) (q : UpdateOp) :
    (findAndUpdate svc store id f q).2.2 = [.findOneAndUpdate id] := by
  unfold findAndUpdate
  cases hu : updateFirst (buildIdFilterQueryOne id f) (fun d => applyUpdate d q)
      store.primary with
  | error e => rfl
  | ok o =>
    cases o with
    | none => rfl
    | some pair => obtain ⟨d', p'⟩ := pair; rfl

/-- The reload read performs exactly one store interaction. -/
theorem getById_trace (svc : Service) (store : Store) (id : Nat) :
    (getById svc store id).2 = [.getByIdRead id] := by
  unfold getById
  cases store.primary.find? (fun d => d._id == id) <;> rfl

/-- Source `getRefCount` either fails resolving the target model with no
store interaction, or performs exactly the one count query. -/
theorem getRefCount_shape (svc : Service) (store : Store) (r : String)
    (jds : List Nat) (rf : Option DocFilter) :
    (∃ e, getRefCount svc store r jds rf = (.error e, [])) ∨
    (∃ n, getRefCount svc store r jds rf = (.ok n, [.targetCount r])) := by
  unfold getRefCount
  cases getReferenceModelName svc r with
  | error e => exact .inl ⟨e, rfl⟩
  | ok m => exact .inr ⟨_, rfl⟩

/-- The store interactions a mutation is allowed to perform: the target
verification count (a read), the single primary update, and the reload
read.  In particular no target-collection write exists. -/
def MutEffects (tr : List Effect) (r : String) (id : Nat) : Prop :=
  ∀ e ∈ tr, e = .targetCount r ∨ e = .findOneAndUpdate id ∨ e = .getByIdRead id

/-- C9: every mutation operation writes at most the single primary-
collection document carrying the mutated id (all other primary documents
and all target collections are left exactly as they were), and the only
store interactions it performs are the verification count read, the single
primary-collection update, and the reload read. -/
theorem c9_mutations_write_only_source_entity
    (svc : Service) (store : Store) (r : String) (id rid : Nat) (ids : List Nat)
    (f rf : Option DocFilter) :
    (WritesOnlyDoc store (addRelations svc store r id ids f rf).2.1 id ∧
      MutEffects (addRelations svc store r id ids f rf).2.2 r id) ∧
    (WritesOnlyDoc store (setRelation svc store r id rid f rf).2.1 id ∧
      MutEffects (setRelation svc store r id rid f rf).2.2 r id) ∧
    (WritesOnlyDoc store (removeRelation svc store r id rid f rf).2.1 id ∧
      MutEffects (removeRelation svc store r id rid f rf).2.2 r id) ∧
    (WritesOnlyDoc store (removeRelations svc store r id ids f rf).2.1 id ∧
      MutEffects (removeRelations svc store r id ids f rf).2.2 r id) := by
  have hnilE : MutEffects [] r id := fun e2 he => absurd he (List.not_mem_nil e2)
  have htcE : MutEffects [.targetCount r] r id := by
    intro e2 he
    have h2 : e2 = .targetCount r := by simpa using he
    exact .inl h2
  have htfE : ∀ t2 : List Effect, t2 = [.findOneAndUpdate id] →
      MutEffects ([.targetCount r] ++ t2) r id := by
    intro t2 ht2 e2 he
    rw [ht2] at he
    rcases by simpa using he with h2 | h2
    · exact .inl h2
    · exact .inr (.inl h2)
  have htfgE : ∀ t2 g2 : List Effect, t2 = [.findOneAndUpdate id] →
      g2 = [.getByIdRead id] → MutEffects ([.targetCount r] ++ t2 ++ g2) r id := by
    intro t2 g2 ht2 hg2 e2 he
    rw [ht2, hg2] at he
    rcases by simpa using he with h2 | h2 | h2
    · exact .inl h2
    · exact .inr (.inl h2)
    · exact .inr (.inr h2)
  refine ⟨?_, ?_, ?_, ?_⟩
  · cases hcr : checkForReference svc "AddRelations" r false with
    | error e =>
      have heq : addRelations svc store r id ids f rf = (.error e, store, []) := by
        simp [addRelations, hcr]
      rw [heq]
      exact ⟨WritesOnlyDoc_refl store id, hnilE⟩
    | ok u =>
      rcases getRefCount_shape svc store r ids rf with ⟨e, hg⟩ | ⟨n, hg⟩
      · have heq : addRelations svc store r id ids f rf = (.error e, store, []) := by
          simp [addRelations, hcr, hg]
        rw [heq]
        exact ⟨WritesOnlyDoc_refl store id, hnilE⟩
      · by_cases hlen : ids.length ≠ n
        · have heq : addRelations svc store r id ids f rf =
              (.error (.unableToFindAllToAdd r svc.modelName), store, [.targetCount r]) := by
            simp [addRelations, hcr, hg, hlen]
          rw [heq]
          exact ⟨WritesOnlyDoc_refl store id, htcE⟩
        · have hlen2 : ids.length = n := not_not.mp hlen
          rcases hfa : findAndUpdate svc store id f (.push r ids) with ⟨rr, s2, t2⟩
          have heq : addRelations svc store r id ids f rf =
              (rr, s2, [.targetCount r] ++ t2) := by
            simp [addRelations, hcr, hg, hlen2, hfa]
          rw [heq]
          have hframe := findAndUpdate_frame svc store id f (.push r ids)
          rw [hfa] at hframe
          have ht2 : t2 = [.findOneAndUpdate id] := by
            have := findAndUpdate_trace svc store id f (.push r ids)
            rw [hfa] at this
            exact this
          exact ⟨hframe, htfE t2 ht2⟩
  · cases hcr : checkForReference svc "SetRelation" r false with
    | error e =>
      have heq : setRelation svc store r id rid f rf = (.error e, store, []) := by
        simp [setRelation, hcr]
      rw [heq]
      exact ⟨WritesOnlyDoc_refl store id, hnilE⟩
    | ok u =>
      rcases getRefCount_shape svc store r [rid] rf with ⟨e, hg⟩ | ⟨n, hg⟩
      · have heq : setRelation svc store r id rid f rf = (.error e, store, []) := by
          simp [setRelation, hcr, hg]
        rw [heq]
        exact ⟨WritesOnlyDoc_refl store id, hnilE⟩
      · by_cases hone : n ≠ 1
        · have heq : setRelation svc store r id rid f rf =
              (.error (.unableToFindToSet r svc.modelName), store, [.targetCount r]) := by
            simp [setRelation, hcr, hg, hone]
          rw [heq]
          exact ⟨WritesOnlyDoc_refl store id, htcE⟩
        · have hone2 : n = 1 := not_not.mp hone
          rcases hfa : findAndUpdate svc store id f (.setF r rid) with ⟨rr, s2, t2⟩
          have heq : setRelation svc store r id rid f rf =
              (rr, s2, [.targetCount r] ++ t2) := by
            simp [setRelation, hcr, hg, hone2, hfa]
          rw [heq]
          have hframe := findAndUpdate_frame svc store id f (.setF r rid)
          rw [hfa] at hframe
          have ht2 : t2 = [.findOneAndUpdate id] := by
            have := findAndUpdate_trace svc store id f (.setF r rid)
            rw [hfa] at this
            exact this
          exact ⟨hframe, htfE t2 ht2⟩
  · cases hcr : checkForReference svc "RemoveRelation" r false with
    | error e =>
      have heq : removeRelation svc store r id rid f rf = (.error e, store, []) := by
        simp [removeRelation, hcr]
      rw [heq]
      exact ⟨WritesOnlyDoc_refl store id, hnilE⟩
    | ok u =>
      rcases getRefCount_shape svc store r [rid] rf with ⟨e, hg⟩ | ⟨n, hg⟩
      · have heq : removeRelation svc store r id rid f rf = (.error e, store, []) := by
          simp [removeRelation, hcr, hg]
        rw [heq]
        exact ⟨WritesOnlyDoc_refl store id, hnilE⟩
      · by_cases hone : n ≠ 1
        · have heq : removeRelation svc store r id rid f rf =
              (.error (.unableToFindToRemove r svc.modelName), store, [.targetCount r]) := by
            simp [removeRelation, hcr, hg, hone]
          rw [heq]
          exact ⟨WritesOnlyDoc_refl store id, htcE⟩
        · have hone2 : n = 1 := not_not.mp hone
          rcases hfa : findAndUpdate svc store id f (.unset r) with ⟨rr, s2, t2⟩
          have hframe := findAndUpdate_frame svc store id f (.unset r)
          rw [hfa] at hframe
          have ht2 : t2 = [.findOneAndUpdate id] := by
            have := findAndUpdate_trace svc store id f (.unset r)
            rw [hfa] at this
            exact this
          cases rr with
          | error e =>
            have heq : removeRelation svc store r id rid f rf =
                (.error e, s2, [.targetCount r] ++ t2) := by
              simp [removeRelation, hcr, hg, hone2, hfa]
            rw [heq]
            exact ⟨hframe, htfE t2 ht2⟩
          | ok d2 =>
            rcases hgb : getById svc s2 id with ⟨gr, g2⟩
            have hg2 : g2 = [.getByIdRead id] := by
              have := getById_trace svc s2 id
              rw [hgb] at this
              exact this
            have heq : removeRelation svc store r id rid f rf =
                (gr, s2, [.targetCount r] ++ t2 ++ g2) := by
              simp [removeRelation, hcr, hg, hone2, hfa, hgb]
            rw [heq]
            exact ⟨hframe, htfgE t2 g2 ht2 hg2⟩
  · cases hcr : checkForReference svc "RemoveRelations" r false with
    | error e =>
      have heq : removeRelations svc store r id ids f rf = (.error e, store, []) := by
        simp [removeRelations, hcr]
      rw [heq]
      exact ⟨WritesOnlyDoc_refl store id, hnilE⟩
    | ok u =>
      rcases getRefCount_shape svc store r ids rf with ⟨e, hg⟩ | ⟨n, hg⟩
      · have heq : removeRelations svc store r id ids f rf = (.error e, store, []) := by
          simp [removeRelations, hcr, hg]
        rw [heq]
        exact ⟨WritesOnlyDoc_refl store id, hnilE⟩
      · by_cases hlen : ids.length ≠ n
        · have heq : removeRelations svc store r id ids f rf =
              (.error (.unableToFindAllToRemove r svc.modelName), store, [.targetCount r]) := by
            simp [removeRelations, hcr, hg, hlen]
          rw [heq]
          exact ⟨WritesOnlyDoc_refl store id, htcE⟩
        · have hlen2 : ids.length = n := not_not.mp hlen
          by_cases hv : isVirtualPath svc.schema r
          · have heq : removeRelations svc store r id ids f rf =
                (.error (.virtualNotSupported "RemoveRelations" r), store, [.targetCount r]) := by
              simp [removeRelations, hcr, hg, hlen2, hv]
            rw [heq]
            exact ⟨WritesOnlyDoc_refl store id, htcE⟩
          · rcases hfa : findAndUpdate svc store id f (.pullAll r ids) with ⟨rr, s2, t2⟩
            have hframe := findAndUpdate_frame svc store id f (.pullAll r ids)
            rw [hfa] at hframe
            have ht2 : t2 = [.findOneAndUpdate id] := by
              have := findAndUpdate_trace svc store id f (.pullAll r ids)
              rw [hfa] at this
              exact this
            cases rr with
            | error e =>
              have heq : removeRelations svc store r id ids f rf =
                  (.error e, s2, [.targetCount r] ++ t2) := by
                simp [removeRelations, hcr, hg, hlen2, hv, hfa]
              rw [heq]
              exact ⟨hframe, htfE t2 ht2⟩
            | ok d2 =>
              rcases hgb : getById svc s2 id with ⟨gr, g2⟩
              have hg2 : g2 = [.getByIdRead id] := by
                have := getById_trace svc s2 id
                rw [hgb] at this
                exact this
              have heq : removeRelations svc store r id ids f rf =
                  (gr, s2, [.targetCount r] ++ t2 ++ g2) := by
                simp [removeRelations, hcr, hg, hlen2, hv, hfa, hgb]
              rw [heq]
              exact ⟨hframe, htfgE t2 g2 ht2 hg2⟩

/-- Entity for the round-trip examples: `tags` referencing only 5. -/
def e0 : Doc := { _id := 1, fields := [("tags", .many [5])] }

/-- Store for the round-trip examples. -/
def storeRT : Store :=
  { primary := [e0], collections := [("Tag", [tagDoc 5, tagDoc 6, tagDoc 7])] }

/-- The entity after adding tags 6 and 7. -/
def e0after : Doc := { _id := 1, fields := [("tags", .many [5, 6, 7])] }

/-- The store after adding tags 6 and 7. -/
def storeRTafter : Store :=
  { primary := [e0after], collections := [("Tag", [tagDoc 5, tagDoc 6, tagDoc 7])] }

/-- A query with a pagination limit of one and no filter. -/
def limitQuery : RelQuery := { filter := none, skip := none, limit := some 1 }

/-- C8 counterexample: a successful addRelations of ids 6 and 7 followed by
a queryRelations whose query carries a pagination limit returns only the
first referenced document, so the result set does not contain the newly
added ids even though no caller filter excludes them. -/
theorem c8_counterexample :
    addRelations svc1 storeRT "tags" 1 [6, 7] none none =
      (.ok e0after, storeRTafter, [.targetCount "tags", .findOneAndUpdate 1]) ∧
    (queryRelations svc1 storeRTafter "tags" e0after limitQuery).1 =
      .ok (.many [tagDoc 5]) ∧
    (∀ d ∈ [tagDoc 5], d._id ≠ 6) ∧ (∀ d ∈ [tagDoc 5], d._id ≠ 7) := by
  refine ⟨by rfl, by rfl, by decide, by decide⟩

/-- C8 amended: after a successful addRelations on a direct-reference
relation, queryRelations on the same relation and the updated entity with a
query carrying no pagination returns a list containing a document for every
newly added id, provided the caller query filter accepts the target
documents of the added ids (over stores whose document ids are pairwise
distinct). -/
theorem c8_add_then_query_contains_added
    (svc : Service) (store : Store) (r m : String) (id : Nat) (ids : List Nat)
    (f rf qf : Option DocFilter) (e2 : Doc) (s2 : Store) (tr : List Effect)
    (href : isReferencePath svc.schema r = true)
    (hm : getReferenceModelName svc r = .ok m)
    (hndp : (store.primary.map Doc._id).Nodup)
    (hndc : ((store.coll m).map Doc._id).Nodup)
    (hqf : ∀ d ∈ store.coll m, d._id ∈ ids → optHolds qf d = true)
    (hadd : addRelations svc store r id ids f rf = (.ok e2, s2, tr)) :
    ∃ l, (queryRelations svc s2 r e2
        { filter := qf, skip := none, limit := none }).1 = .ok (.many l) ∧
      ∀ i ∈ ids, ∃ d ∈ l, d._id = i := by
  have hcheck : checkForReference svc "AddRelations" r false = .ok () := by
    simp [checkForReference, href]
  have hrc : getRefCount svc store r ids rf =
      (.ok ((store.coll m).countP (buildIdFilterQuery ids rf)), [.targetCount r]) := by
    simp [getRefCount, hm]
  simp only [addRelations, hcheck, hrc] at hadd
  by_cases hlen : ids.length ≠ (store.coll m).countP (buildIdFilterQuery ids rf)
  · rw [if_pos hlen] at hadd
    simp at hadd
  · rw [if_neg hlen] at hadd
    have hcount : (store.coll m).countP (buildIdFilterQuery ids rf) = ids.length :=
      (not_not.mp hlen).symm
    rcases hfa : findAndUpdate svc store id f (.push r ids) with ⟨rr, ss, tt⟩
    rw [hfa] at hadd
    simp only [Prod.mk.injEq] at hadd
    obtain ⟨hrr, hss, htr⟩ := hadd
    rw [hrr, hss] at hfa
    unfold findAndUpdate at hfa
    cases hu : updateFirst (buildIdFilterQueryOne id f)
        (fun d => applyUpdate d (.push r ids)) store.primary with
    | error e => rw [hu] at hfa; simp at hfa
    | ok o =>
      cases o with
      | none => rw [hu] at hfa; simp at hfa
      | some pair =>
        obtain ⟨d', primary'⟩ := pair
        rw [hu] at hfa
        simp only [Prod.mk.injEq, Except.ok.injEq] at hfa
        obtain ⟨hde, hsto, _⟩ := hfa
        obtain ⟨pre, d0, post, hl, hl', hpre, hp0, hu0⟩ :=
          updateFirst_ok_some _ _ store.primary d' primary' hu
        rw [hde] at hl' hu0
        have hid0 : d0._id = id := by
          unfold buildIdFilterQueryOne at hp0
          have hb := ((Bool.and_eq_true _ _).mp hp0).1
          simpa using hb
        have hprev : ∃ prev : List Nat, e2 = d0.setField r (.many (prev ++ ids)) := by
          simp only [applyUpdate] at hu0
          cases hg0 : d0.get r with
          | absent =>
            rw [hg0] at hu0
            simp only [Except.ok.injEq] at hu0
            exact ⟨[], by rw [← hu0]; simp⟩
          | one i => rw [hg0] at hu0; simp at hu0
          | many prev =>
            rw [hg0] at hu0
            simp only [Except.ok.injEq] at hu0
            exact ⟨prev, hu0.symm⟩
        obtain ⟨prev, he2⟩ := hprev
        have he2id : e2._id = id := by rw [he2, Doc.setField_id, hid0]
        have he2get : e2.get r = .many (prev ++ ids) := by
          rw [he2]; exact Doc.get_setField d0 r (.many (prev ++ ids))
        have hcheck2 : checkForReference svc "QueryRelations" r true = .ok () := by
          simp [checkForReference, href]
        have hpremap : ∀ x ∈ pre, x._id ≠ d0._id := by
          have hnd2 := hndp
          rw [hl, List.map_append, List.map_cons] at hnd2
          obtain ⟨hndpre, hndrest, hdisj⟩ := List.nodup_append.mp hnd2
          intro x hx contra
          exact hdisj (List.mem_map_of_mem Doc._id hx)
            (by rw [contra]; exact List.mem_cons_self d0._id (post.map Doc._id))
        have hfind : s2.primary.find? (fun d => d._id == e2._id) = some e2 := by
          rw [← hsto]
          show primary'.find? (fun d => d._id == e2._id) = some e2
          rw [hl', List.find?_append]
          have hnone : pre.find? (fun d => d._id == e2._id) = none := by
            rw [List.find?_eq_none]
            intro x hx
            have hne : x._id ≠ e2._id := by
              rw [he2id, ← hid0]
              exact hpremap x hx
            simp [hne]
          rw [hnone]
          have hcons : (e2 :: post).find? (fun d => d._id == e2._id) = some e2 :=
            List.find?_cons_of_pos post (by simp)
          rw [hcons]
          rfl
        have hpop : populatePath svc s2 r e2 qf none none =
            .ok (.many ((prev ++ ids).filterMap
              (fun i => (s2.coll m).find? (fun d => d._id == i && optHolds qf d)))) := by
          simp [populatePath, hm, href, he2get, applyPopulateOpts]
        have hscoll : s2.coll m = store.coll m := by
          rw [← hsto]
          rfl
        refine ⟨(prev ++ ids).filterMap
          (fun i => (s2.coll m).find? (fun d => d._id == i && optHolds qf d)), ?_, ?_⟩
        · simp only [queryRelations, hcheck2, hfind, hpop]
        · intro i hi
          have hcount2 : (store.coll m).countP
              (fun d => ids.contains d._id && optHolds rf d) = ids.length := hcount
          obtain ⟨d, hdcoll, hdi, _⟩ :=
            countMatch_complete (store.coll m) ids (optHolds rf) hndc hcount2 i hi
          have hqd : optHolds qf d = true := hqf d hdcoll (by rw [hdi]; exact hi)
          have hpred : (d._id == i && optHolds qf d) = true := by
            rw [hdi]; simp [hqd]
          have hsome : ((store.coll m).find?
              (fun dd => dd._id == i && optHolds qf dd)).isSome :=
            List.find?_isSome.mpr ⟨d, hdcoll, hpred⟩
          obtain ⟨d2, hd2⟩ := Option.isSome_iff_exists.mp hsome
          have hd2i : d2._id = i := by
            have hb := List.find?_some hd2
            have hb1 := ((Bool.and_eq_true _ _).mp hb).1
            simpa using hb1
          refine ⟨d2, ?_, hd2i⟩
          apply List.mem_filterMap.mpr
          exact ⟨i, List.mem_append_right prev hi, by rw [hscoll]; exact hd2⟩

/-- Witness for C8 (amended form): adding tags 6 and 7 then querying with
no paging yields all three referenced documents, containing both added
ids. -/
theorem c8_witness :
    addRelations svc1 storeRT "tags" 1 [6, 7] none none =
      (.ok e0after, storeRTafter, [.targetCount "tags", .findOneAndUpdate 1]) ∧
    (∃ l, (queryRelations svc1 storeRTafter "tags" e0after
        { filter := none, skip := none, limit := none }).1 = .ok (.many l) ∧
      ∀ i ∈ [6, 7], ∃ d ∈ l, d._id = i) :=
  ⟨by rfl,
    c8_add_then_query_contains_added svc1 storeRT "tags" "Tag" 1 [6, 7]
      none none none e0after storeRTafter [.targetCount "tags", .findOneAndUpdate 1]
      (by decide) (by rfl) (by decide) (by decide)
      (fun d _ _ => by rfl) (by rfl)⟩

end NQ
